import Mathlib

/-!
Verification of `provider_asset_cleanup.py` (rox-edc-asset-exchange).

We shallowly embed the script's data handling: Python/JSON values become the
inductive `Json`, the response dictionaries produced by `_send_request` become
`ResponseDict`, and each function of the script becomes a Lean function that
mirrors its control flow.  The JSON parser of the `requests`/`json` libraries
is kept abstract as a function `String → Option Json` (returning `none` when
parsing raises `ValueError`).
-/

/-- A JSON / Python value as handled by the script.  Python `None` is `null`;
numbers are modelled as integers (the script never computes with numeric
payload values). -/
inductive Json where
  | null : Json
  | bool (b : Bool) : Json
  | num (n : Int) : Json
  | str (s : String) : Json
  | arr (elems : List Json) : Json
  | obj (fields : List (String × Json)) : Json

mutual

/-- Python structural equality `==` on JSON values (dict equality is modelled
as field-list equality; the script only ever compares identifier values, which
are flat). -/
def Json.beq : Json → Json → Bool
  | .null, .null => true
  | .bool a, .bool b => a == b
  | .num a, .num b => a == b
  | .str a, .str b => a == b
  | .arr a, .arr b => Json.beqList a b
  | .obj a, .obj b => Json.beqFields a b
  | _, _ => false

def Json.beqList : List Json → List Json → Bool
  | [], [] => true
  | x :: xs, y :: ys => Json.beq x y && Json.beqList xs ys
  | _, _ => false

def Json.beqFields : List (String × Json) → List (String × Json) → Bool
  | [], [] => true
  | (k1, v1) :: xs, (k2, v2) :: ys => k1 == k2 && Json.beq v1 v2 && Json.beqFields xs ys
  | _, _ => false

end

namespace Json

/-- Python truthiness (`if x:`): `None`, `False`, `0`, `""`, `[]`, `{}` are falsy. -/
def truthy : Json → Bool
  | .null => false
  | .bool b => b
  | .num n => n != 0
  | .str s => s != ""
  | .arr l => !l.isEmpty
  | .obj l => !l.isEmpty

/-- Key lookup in an object's field list (Python dict keys are unique; the
first binding wins). -/
def lookupKey : List (String × Json) → String → Option Json
  | [], _ => none
  | (k, v) :: rest, key => if k = key then some v else lookupKey rest key

/-- Lookup `j.get? k`: `some v` iff `j` is an object that has key `k`. -/
def get? : Json → String → Option Json
  | .obj fields, key => lookupKey fields key
  | _, _ => none

/-- Python `d.get(k)` on a dict: the value, or `None` when the key is absent. -/
def getD (j : Json) (key : String) : Json :=
  (j.get? key).getD .null

/-- Python `d.get(k, default)` on a dict. -/
def get2 (j : Json) (key : String) (dflt : Json) : Json :=
  (j.get? key).getD dflt

def isObj : Json → Bool
  | .obj _ => true
  | _ => false

/-- Python `k in d` (dict key membership). -/
def hasKey (j : Json) (key : String) : Bool :=
  (j.get? key).isSome

/-- Python `isinstance(x, list)`: the element list when `j` is an array. -/
def asArr? : Json → Option (List Json)
  | .arr l => some l
  | _ => none

/-- The keys of an object, in order (Python `d.keys()`). -/
def keys : Json → List String
  | .obj fields => fields.map (·.1)
  | _ => []

end Json

example : (Json.obj [("a", .num 1)]).getD "a" = .num 1 := rfl
example : (Json.obj [("a", .num 1)]).getD "b" = .null := rfl
example : Json.beq (.str "x") (.str "x") = true := rfl
example : Json.beq (.arr [.str "x"]) (.arr [.str "y"]) = false := rfl

/-! ## `_send_request`: the response normalizer -/

/-- What the HTTP transport produced for one request: either a
`requests.exceptions.RequestException` (no response), or a response with a
status code and body text. -/
inductive HttpResult where
  | exn (msg : String) : HttpResult
  | resp (status_code : Nat) (text : String) : HttpResult

/-- The dictionary `_send_request` returns.  `data = none` models the `"data"`
key being absent from the dict (as happens for `success_non_json` and for the
exception dict); `data = some v` models the key being set to `v`
(`Json.null` for Python `None`).  Likewise for `error`. -/
structure ResponseDict where
  status_code : Option Nat
  content : String
  status : String
  data : Option Json
  error : Option Json

/-- Python `response_dict.get("data")` (absent key reads as `None`). -/
def ResponseDict.dataGet (rd : ResponseDict) : Json :=
  rd.data.getD .null

/-- Function `ProviderAssetCleaner._send_request`, lines 30–73.  `parse` models
`response.json()` (`none` = `ValueError` raised); logging is dropped. -/
def sendRequest (parse : String → Option Json) : HttpResult → ResponseDict
  | .exn msg =>
    { status_code := none, content := msg, status := "exception",
      data := none, error := some (.str msg) }
  | .resp code text =>
    if 200 ≤ code ∧ code < 300 then
      if text = "" then
        { status_code := some code, content := text, status := "success_no_content",
          data := some .null, error := none }
      else
        match parse text with
        | some d =>
          { status_code := some code, content := text, status := "success_json",
            data := some d, error := none }
        | none =>
          { status_code := some code, content := text, status := "success_non_json",
            data := none, error := none }
    else
      { status_code := some code, content := text, status := "failed",
        data := none,
        error := some ((parse text).getD (.str (text.take 500))) }

/-! ## `list_assets`: the four-strategy endpoint resolver -/

/-- The four listing strategies, in the order the source tries them:
`GET /v3/assets`, `POST /v3/assets/request`, `POST /v2/assets/request`,
`GET /v2/assets`. -/
inductive Strategy where
  | v3get : Strategy
  | v3post : Strategy
  | v2post : Strategy
  | v2get : Strategy
deriving DecidableEq, Repr

/-- Python `isinstance(response_dict.get("data"), list)`: the data list, if any. -/
def dataList (rd : ResponseDict) : Option (List Json) :=
  rd.dataGet.asArr?

/-- Lines 84–94: how the first strategy decides whether it got a usable list.
`parseLoads` models `json.loads` (used on the raw content in the secondary
branch guarded by `status_code == 200`). -/
def usableList1 (parseLoads : String → Option Json) (rd : ResponseDict) : Option (List Json) :=
  match (if rd.status = "success_json" || rd.status = "success_non_json"
         then dataList rd else none) with
  | some l => some l
  | none =>
    if rd.status_code = some 200 then
      match parseLoads rd.content with
      | some (.arr l) => some l
      | _ => none
    else none

/-- Lines 137–139 / 173–175 / 192–194: strategies 2–4 accept only a
`success_json` outcome whose data is a list. -/
def usableList234 (rd : ResponseDict) : Option (List Json) :=
  if rd.status = "success_json" then dataList rd else none

/-- The dict `{'@id': ..., 'name': ...}` appended for each listed asset. -/
structure AssetD where
  id : Json
  name : Json

/-- Substring test on character lists (`pat in s` for Python strings). -/
def subOf (pat : List Char) : List Char → Bool
  | [] => pat.isEmpty
  | c :: rest => pat.isPrefixOf (c :: rest) || subOf pat rest

/-- Python `pat in s` for strings. -/
def strContains (s pat : String) : Bool :=
  subOf pat.data s.data

/-- The candidate-name loop: first candidate key whose value in `props` is
truthy wins; otherwise the running default is kept. -/
def firstTruthy (props : Json) (dflt : Json) : List String → Json
  | [] => dflt
  | k :: rest =>
    if (props.getD k).truthy then props.getD k else firstTruthy props dflt rest

/-- Lines 98–117: per-item extraction for strategy 1 (`GET /v3/assets`).
`Except.error` models the `AttributeError` Python raises when
`asset_data.get` is called on a non-dict item. -/
def extractAsset1 (ns : String) (j : Json) : Except String (Option AssetD) :=
  if j.isObj then
    let aid := j.getD "@id"
    if aid.truthy then
      let name0 := j.get2 "name" (j.get2 "id" aid)
      let props := j.getD "properties"
      let name :=
        if props.isObj then
          let cands := ["asset:prop:name", "name", "id", ns ++ "name", ns ++ "id"]
            ++ props.keys.filter
                (fun k => strContains k.toLower "name" || strContains k.toLower "id")
          firstTruthy props name0 cands
        else if (j.getD "asset:properties").isObj then
          let props2 := j.getD "asset:properties"
          firstTruthy props2 name0
            ["asset:prop:name", "name", "id", "dct:title", ns ++ "name", ns ++ "id"]
        else name0
      .ok (some ⟨aid, name⟩)
    else .ok none
  else .error "AttributeError"

/-- Lines 143–154: per-item extraction for strategy 2 (`POST /v3/assets/request`). -/
def extractAsset2 (ns : String) (j : Json) : Except String (Option AssetD) :=
  if j.isObj then
    let aid := j.getD "@id"
    if aid.truthy then
      let name0 := j.get2 "name" (j.get2 "id" aid)
      let props := j.get2 "properties" (j.getD "asset:properties")
      let name :=
        if props.isObj then
          firstTruthy props name0
            ["asset:prop:name", "name", "id", "dct:title", ns ++ "name", ns ++ "id"]
        else name0
      .ok (some ⟨aid, name⟩)
    else .ok none
  else .error "AttributeError"

/-- Lines 178 and 197: per-item extraction for strategies 3 and 4 (the `/v2/`
list comprehensions).  `asset.get('properties', {})` yields a non-dict when the
key is present with a non-dict value, and the chained `.get` then raises. -/
def extractAsset34 (j : Json) : Except String (Option AssetD) :=
  if j.isObj then
    let aid := j.getD "@id"
    if aid.truthy then
      let props := j.get2 "properties" (.obj [])
      if props.isObj then
        .ok (some ⟨aid, props.get2 "asset:prop:name" aid⟩)
      else .error "AttributeError"
    else .ok none
  else .error "AttributeError"

/-- Run a per-item extractor over a listed collection, in order, stopping at
the first raised error (as the Python `for` loop does). -/
def extractAll (f : Json → Except String (Option AssetD)) :
    List Json → Except String (List AssetD)
  | [] => .ok []
  | j :: rest => do
    let o ← f j
    let tail ← extractAll f rest
    pure (match o with | some a => a :: tail | none => tail)

/-- Function `ProviderAssetCleaner.list_assets`, lines 75–202.  Returns the strategies
actually invoked (the network calls made, in order) together with either the
extracted assets or the `AttributeError` raised during extraction.  The
transport is a map from strategy to raw HTTP result; `parse` models
`response.json()` inside `_send_request` and `parseLoads` models the separate
`json.loads` call on line 89. -/
def list_assets (ns : String) (parse parseLoads : String → Option Json)
    (transport : Strategy → HttpResult) :
    List Strategy × Except String (List AssetD) :=
  let rd1 := sendRequest parse (transport .v3get)
  match usableList1 parseLoads rd1 with
  | some l => ([.v3get], extractAll (extractAsset1 ns) l)
  | none =>
    let rd2 := sendRequest parse (transport .v3post)
    match usableList234 rd2 with
    | some l => ([.v3get, .v3post], extractAll (extractAsset2 ns) l)
    | none =>
      let rd3 := sendRequest parse (transport .v2post)
      match usableList234 rd3 with
      | some l => ([.v3get, .v3post, .v2post], extractAll extractAsset34 l)
      | none =>
        let rd4 := sendRequest parse (transport .v2get)
        match usableList234 rd4 with
        | some l => ([.v3get, .v3post, .v2post, .v2get], extractAll extractAsset34 l)
        | none => ([.v3get, .v3post, .v2post, .v2get], .ok [])

/-! ## Contract definitions: listing and criteria resolution -/

/-- The processed dict built for each contract definition (lines 311–316). -/
structure CDEntry where
  id : Json
  accessPolicyId : Json
  contractPolicyId : Json
  assetsSelectorTarget : Json

/-- Lines 283–296: assemble the ordered criteria list from the raw shapes
(`assetsSelector` as a dict, `assetsSelector` as a list, or the legacy
`criterion` field). -/
def criteriaToCheck (item : Json) : List Json :=
  let raw := item.getD "assetsSelector"
  if raw.isObj then [raw]
  else
    match raw.asArr? with
    | some l => l
    | none =>
      if item.hasKey "criterion" then
        let cf := item.getD "criterion"
        if cf.isObj then [cf]
        else
          match cf.asArr? with
          | some l => l
          | none => []
      else []

/-- Lines 299–306: a criterion matches when it is a dict whose `operandLeft`
is the namespaced id key (or the hard-coded default-namespace id key) and
whose `operator` is `"="`. -/
def critMatches (ns : String) (c : Json) : Bool :=
  c.isObj &&
  (Json.beq (c.getD "operandLeft") (.str (ns ++ "id")) ||
   Json.beq (c.getD "operandLeft") (.str "https://w3id.org/edc/v0.0.1/ns/id")) &&
  Json.beq (c.getD "operator") (.str "=")

/-- Lines 298–309: the criteria loop.  On a match the running value is
overwritten with `operandRight`; the loop `break`s only when that value is
truthy. -/
def critLoop (ns : String) (acc : Json) : List Json → Json
  | [] => acc
  | c :: rest =>
    if critMatches ns c then
      let v := c.getD "operandRight"
      if v.truthy then v else critLoop ns v rest
    else critLoop ns acc rest

/-- The `assetsSelectorTarget` resolution for one raw contract definition
(`Json.null` models the initial Python `None`). -/
def resolveSelectorTarget (ns : String) (item : Json) : Json :=
  critLoop ns .null (criteriaToCheck item)

/-- Lines 274–316: per-item contract-definition extraction; `none` = the item
was skipped (non-dict, or falsy `@id`). -/
def extractCDItem (ns : String) (j : Json) : Option CDEntry :=
  if j.isObj then
    let cid := j.getD "@id"
    if cid.truthy then
      some ⟨cid, j.getD "accessPolicyId", j.getD "contractPolicyId",
            resolveSelectorTarget ns j⟩
    else none
  else none

/-- The contract-definition extraction loop. -/
def extractCDs (ns : String) : List Json → List CDEntry
  | [] => []
  | j :: rest =>
    match extractCDItem ns j with
    | some e => e :: extractCDs ns rest
    | none => extractCDs ns rest

/-- Function `ProviderAssetCleaner.list_contract_definitions`, lines 254–327: accepts
only a `success_json` list outcome, else returns `[]`. -/
def list_contract_definitions (ns : String) (parse : String → Option Json)
    (r : HttpResult) : List CDEntry :=
  let rd := sendRequest parse r
  match (if rd.status = "success_json" then dataList rd else none) with
  | some l => extractCDs ns l
  | none => []

/-! ## Contract agreements: listing and asset-reference resolution -/

/-- The processed dict built for each contract agreement (lines 412–418). -/
structure CAEntry where
  id : Json
  assetId : Json
  providerId : Json
  consumerId : Json

/-- Lines 397–410: ordered fallback for an agreement's asset reference:
top-level `assetId` → nested `asset` object's `@id` → the policy object's
`target` (unwrapped to its `@id` when itself a dict). -/
def resolveAgreementAsset (item : Json) : Json :=
  let t1 := item.getD "assetId"
  let t2 :=
    if t1.truthy then t1
    else
      let assetObj := item.getD "asset"
      if assetObj.isObj then assetObj.getD "@id" else t1
  if t2.truthy then t2
  else
    let policy := item.get2 "policy" (.obj [])
    if policy.isObj then
      let tgt := policy.getD "target"
      if tgt.isObj then tgt.getD "@id" else tgt
    else t2

/-- Lines 386–418: per-item contract-agreement extraction; `none` = skipped. -/
def extractCAItem (j : Json) : Option CAEntry :=
  if j.isObj then
    let cid := j.getD "@id"
    if cid.truthy then
      some ⟨cid, resolveAgreementAsset j, j.getD "providerId", j.getD "consumerId"⟩
    else none
  else none

/-- The contract-agreement extraction loop. -/
def extractCAs : List Json → List CAEntry
  | [] => []
  | j :: rest =>
    match extractCAItem j with
    | some e => e :: extractCAs rest
    | none => extractCAs rest

/-- Function `ProviderAssetCleaner.list_contract_agreements`, lines 367–426. -/
def list_contract_agreements (parse : String → Option Json)
    (r : HttpResult) : List CAEntry :=
  let rd := sendRequest parse r
  match (if rd.status = "success_json" then dataList rd else none) with
  | some l => extractCAs l
  | none => []

/-! ## The three delete classifiers -/

/-- The `is_success` computation shared by `delete_asset` (lines 220–226) and
`delete_contract_agreement` (lines 443–449). -/
def isSuccessDel (rd : ResponseDict) : Bool :=
  if rd.status = "success_no_content" ∨
     (rd.status = "success_json" ∧ (rd.status_code = some 200 ∨ rd.status_code = some 204)) ∨
     (rd.status = "success_non_json" ∧ (rd.status_code = some 200 ∨ rd.status_code = some 204))
  then true else false

/-- Function `ProviderAssetCleaner.delete_asset`, lines 204–251, as a function of the
normalized response (the guard on line 212 is vacuous: `_send_request` always
returns a non-empty dict). -/
def delete_asset_result (rd : ResponseDict) : Bool :=
  if isSuccessDel rd = true then true
  else if rd.status_code = some 409 then false
  else if (match rd.status_code with | some c => decide (300 ≤ c) | none => false) = true
  then false
  else false

/-- Function `ProviderAssetCleaner.delete_contract_definition`, lines 346–364. -/
def delete_cd_result (rd : ResponseDict) : Bool :=
  if rd.status_code = some 200 ∨ rd.status_code = some 204 ∨
     rd.status = "success_no_content"
  then true else false

/-- Function `ProviderAssetCleaner.delete_contract_agreement`, lines 428–462. -/
def delete_ca_result (rd : ResponseDict) : Bool :=
  if isSuccessDel rd = true then true
  else if rd.status_code = some 405 then false
  else false

/-! ## The cascade orchestrator (`main`, lines 622–671) -/

/-- The six aggregation counters of `main`. -/
structure Counters where
  deleted_assets : Nat
  failed_assets : Nat
  deleted_cds : Nat
  failed_cds : Nat
  deleted_cas : Nat
  failed_cas : Nat

def Counters.add (a b : Counters) : Counters :=
  ⟨a.deleted_assets + b.deleted_assets, a.failed_assets + b.failed_assets,
   a.deleted_cds + b.deleted_cds, a.failed_cds + b.failed_cds,
   a.deleted_cas + b.deleted_cas, a.failed_cas + b.failed_cas⟩

/-- One delete network call made by the cascade, identified by entity kind and
id (the call order is the observable the spec talks about). -/
inductive DelCall where
  | cd (id : Json) : DelCall
  | ca (id : Json) : DelCall
  | asset (id : Json) : DelCall

/-- Lines 636–644: the loop over the contract-definition snapshot for one
asset.  `delCd` is the outcome oracle for `delete_contract_definition`.
Returns (deleted, failed, calls made in order). -/
def deleteDefsLoop (delCd : Json → Bool) (aid : Json) :
    List CDEntry → Nat × Nat × List DelCall
  | [] => (0, 0, [])
  | e :: rest =>
    if Json.beq e.assetsSelectorTarget aid then
      let (d, f, tr) := deleteDefsLoop delCd aid rest
      if delCd e.id then (d + 1, f, .cd e.id :: tr)
      else (d, f + 1, .cd e.id :: tr)
    else deleteDefsLoop delCd aid rest

/-- Lines 651–662: the loop over the contract-agreement snapshot for one asset. -/
def deleteCAsLoop (delCa : Json → Bool) (aid : Json) :
    List CAEntry → Nat × Nat × List DelCall
  | [] => (0, 0, [])
  | e :: rest =>
    if Json.beq e.assetId aid then
      let (d, f, tr) := deleteCAsLoop delCa aid rest
      if delCa e.id then (d + 1, f, .ca e.id :: tr)
      else (d, f + 1, .ca e.id :: tr)
    else deleteCAsLoop delCa aid rest

/-- Lines 629–671: the body of the per-asset loop: delete targeting contract
definitions, then related contract agreements, then the asset itself. -/
def processAsset (delCd delCa delA : Json → Bool) (defs : List CDEntry)
    (cas : List CAEntry) (aid : Json) : List DelCall × Counters :=
  let (dcd, fcd, trCd) := deleteDefsLoop delCd aid defs
  let (dca, fca, trCa) := deleteCAsLoop delCa aid cas
  if delA aid then
    (trCd ++ trCa ++ [.asset aid], ⟨1, 0, dcd, fcd, dca, fca⟩)
  else
    (trCd ++ trCa ++ [.asset aid], ⟨0, 1, dcd, fcd, dca, fca⟩)

/-- The full cascade over the selected assets, accumulating the global
counters and the ordered list of delete calls. -/
def runCascade (delCd delCa delA : Json → Bool) (defs : List CDEntry)
    (cas : List CAEntry) : List AssetD → List DelCall × Counters
  | [] => ([], ⟨0, 0, 0, 0, 0, 0⟩)
  | a :: rest =>
    let (tr, c) := processAsset delCd delCa delA defs cas a.id
    let (tr2, c2) := runCascade delCd delCa delA defs cas rest
    (tr ++ tr2, c.add c2)

/-! ## `main` (lines 539–689): configuration gate, listing, cascade, exit -/

/-- Startup configuration as `main` observes it: whether the `--env` path
exists, and the `BASE_URL` / `API_KEY` environment values (`none` = unset;
`some ""` is falsy for Python's `if not base_url:`). -/
structure Config where
  envFileExists : Bool
  base_url : Option String
  api_key : Option String

/-- How the process ends: `sys.exit`/normal return with a code, or an uncaught
exception (which makes the interpreter exit non-zero). -/
inductive MainOutcome where
  | exitCode (n : Nat) : MainOutcome
  | crashed (msg : String) : MainOutcome
deriving DecidableEq, Repr

/-- Function `main`: the second component counts the network calls made.  `select`
models `get_user_selection` (interactive), `confirmOk` the `--yes` flag or the
typed confirmation, `delResp` the transport's answer to each delete call. -/
def mainRun (cfg : Config) (ns : String) (parse parseLoads : String → Option Json)
    (transport : Strategy → HttpResult)
    (select : List AssetD → List AssetD) (confirmOk : Bool)
    (cdListResp caListResp : HttpResult)
    (delResp : DelCall → HttpResult) : MainOutcome × Nat :=
  if !cfg.envFileExists then (.exitCode 1, 0)
  else if cfg.base_url.getD "" == "" then (.exitCode 1, 0)
  else if cfg.api_key.getD "" == "" then (.exitCode 1, 0)
  else
    let (tr, res) := list_assets ns parse parseLoads transport
    match res with
    | .error m => (.crashed m, tr.length)
    | .ok assets =>
      if assets.isEmpty then (.exitCode 0, tr.length)
      else
        let selected := select assets
        if selected.isEmpty then (.exitCode 0, tr.length)
        else if !confirmOk then (.exitCode 0, tr.length)
        else
          let defs := list_contract_definitions ns parse cdListResp
          let netDebug := if defs.isEmpty then 0 else 1
          let cas := list_contract_agreements parse caListResp
          let delCd := fun cid => delete_cd_result (sendRequest parse (delResp (.cd cid)))
          let delCa := fun cid => delete_ca_result (sendRequest parse (delResp (.ca cid)))
          let delA := fun aid => delete_asset_result (sendRequest parse (delResp (.asset aid)))
          let (casTrace, _ctrs) := runCascade delCd delCa delA defs cas selected
          (.exitCode 0, tr.length + 1 + netDebug + 1 + casTrace.length)

/-! # Theorems -/

/-- C2: the response normalizer classifies by status code first and then by
body: 2xx with empty body → `success_no_content`; 2xx non-empty parsing as
JSON → `success_json` carrying the parsed data; 2xx non-empty failing to
parse → `success_non_json` with no data field; status outside [200,300) →
`failed` carrying the parsed body if possible, otherwise the raw text
truncated to 500 characters; a transport exception → status `"exception"`
with no status code, returned rather than raised. -/
theorem sendRequest_classification (parse : String → Option Json) :
    (∀ code text, 200 ≤ code → code < 300 → text = "" →
      sendRequest parse (.resp code text) =
        { status_code := some code, content := text, status := "success_no_content",
          data := some .null, error := none })
  ∧ (∀ code text d, 200 ≤ code → code < 300 → text ≠ "" → parse text = some d →
      sendRequest parse (.resp code text) =
        { status_code := some code, content := text, status := "success_json",
          data := some d, error := none })
  ∧ (∀ code text, 200 ≤ code → code < 300 → text ≠ "" → parse text = none →
      sendRequest parse (.resp code text) =
        { status_code := some code, content := text, status := "success_non_json",
          data := none, error := none })
  ∧ (∀ code text, ¬(200 ≤ code ∧ code < 300) →
      sendRequest parse (.resp code text) =
        { status_code := some code, content := text, status := "failed",
          data := none, error := some ((parse text).getD (.str (text.take 500))) })
  ∧ (∀ msg, sendRequest parse (.exn msg) =
      { status_code := none, content := msg, status := "exception",
        data := none, error := some (.str msg) }) := by
  refine ⟨?_, ?_, ?_, ?_, ?_⟩
  · intro code text h1 h2 h3
    simp [sendRequest, h3, if_pos (And.intro h1 h2)]
  · intro code text d h1 h2 h3 h4
    simp [sendRequest, if_pos (And.intro h1 h2), h3, h4]
  · intro code text h1 h2 h3 h4
    simp [sendRequest, if_pos (And.intro h1 h2), h3, h4]
  · intro code text h
    simp [sendRequest, if_neg h]
  · intro msg
    rfl

/-- Witness for `sendRequest_classification` at concrete inputs. -/
theorem sendRequest_classification_witness :
    sendRequest (fun _ => none) (.resp 204 "") =
      { status_code := some 204, content := "", status := "success_no_content",
        data := some .null, error := none } ∧
    sendRequest (fun _ => none) (.resp 500 "oops") =
      { status_code := some 500, content := "oops", status := "failed",
        data := none, error := some (.str ("oops".take 500)) } :=
  ⟨(sendRequest_classification (fun _ => none)).1 204 "" (by decide) (by decide) rfl,
   (sendRequest_classification (fun _ => none)).2.2.2.1 500 "oops" (by decide)⟩

/-- Modelled from the spec's words (§4.4), for comparison with the code's
classifiers: the outcomes a delete must report as `true` are `SuccessEmpty`,
or `Success`/`SuccessNonJSON` with status 200 or 204. -/
def deleteTrueSpec (rd : ResponseDict) : Prop :=
  rd.status = "success_no_content" ∨
  ((rd.status = "success_json" ∨ rd.status = "success_non_json") ∧
   (rd.status_code = some 200 ∨ rd.status_code = some 204))

/-- C8: each delete operation returns `true` exactly when the normalized
outcome is `SuccessEmpty`, or `Success`/`SuccessNonJSON` with status 200 or
204; every non-2xx response (including 409, 405, 500, and deleting an
already-deleted id) yields `false` without raising; a 500 response with a
JSON error body keeps the parsed payload in the `error` field; a transport
exception yields `false`. -/
theorem delete_classification (parse : String → Option Json) :
    (∀ r : HttpResult,
      (delete_asset_result (sendRequest parse r) = true ↔ deleteTrueSpec (sendRequest parse r)) ∧
      (delete_cd_result (sendRequest parse r) = true ↔ deleteTrueSpec (sendRequest parse r)) ∧
      (delete_ca_result (sendRequest parse r) = true ↔ deleteTrueSpec (sendRequest parse r)))
  ∧ (∀ code text, ¬(200 ≤ code ∧ code < 300) →
      delete_asset_result (sendRequest parse (.resp code text)) = false ∧
      delete_cd_result (sendRequest parse (.resp code text)) = false ∧
      delete_ca_result (sendRequest parse (.resp code text)) = false)
  ∧ (∀ text e, parse text = some e →
      (sendRequest parse (.resp 500 text)).error = some e)
  ∧ (∀ msg,
      delete_asset_result (sendRequest parse (.exn msg)) = false ∧
      delete_cd_result (sendRequest parse (.exn msg)) = false ∧
      delete_ca_result (sendRequest parse (.exn msg)) = false) := by
  have hfail : ∀ code text, ¬(200 ≤ code ∧ code < 300) →
      delete_asset_result (sendRequest parse (.resp code text)) = false ∧
      delete_cd_result (sendRequest parse (.resp code text)) = false ∧
      delete_ca_result (sendRequest parse (.resp code text)) = false := by
    intro code text h
    have h200 : code ≠ 200 := by omega
    have h204 : code ≠ 204 := by omega
    refine ⟨?_, ?_, ?_⟩ <;>
      simp [sendRequest, if_neg h, delete_asset_result, delete_cd_result,
        delete_ca_result, isSuccessDel, h200, h204]
  refine ⟨?_, hfail, ?_, ?_⟩
  · intro r
    match r with
    | .exn msg =>
      refine ⟨?_, ?_, ?_⟩ <;>
        simp [sendRequest, delete_asset_result, delete_cd_result, delete_ca_result,
          isSuccessDel, deleteTrueSpec]
    | .resp code text =>
      by_cases h : 200 ≤ code ∧ code < 300
      · by_cases ht : text = ""
        · refine ⟨?_, ?_, ?_⟩ <;>
            simp [sendRequest, if_pos h, ht, delete_asset_result, delete_cd_result,
              delete_ca_result, isSuccessDel, deleteTrueSpec]
        · cases hp : parse text <;>
          · by_cases hc : code = 200 ∨ code = 204 <;>
              refine ⟨?_, ?_, ?_⟩ <;>
                simp [sendRequest, if_pos h, ht, hp, delete_asset_result,
                  delete_cd_result, delete_ca_result, isSuccessDel, deleteTrueSpec, hc]
      · have hf := hfail code text h
        have hs : (sendRequest parse (.resp code text)).status = "failed" := by
          simp [sendRequest, if_neg h]
        have hc : (sendRequest parse (.resp code text)).status_code = some code := by
          simp [sendRequest, if_neg h]
        have hns : ¬ deleteTrueSpec (sendRequest parse (.resp code text)) := by
          simp [deleteTrueSpec, hs, hc]
        exact ⟨by simp [hf.1, hns], by simp [hf.2.1, hns], by simp [hf.2.2, hns]⟩
  · intro text e he
    have h500 : ¬(200 ≤ 500 ∧ 500 < 300) := by omega
    simp [sendRequest, if_neg h500, he]
  · intro msg
    refine ⟨rfl, rfl, rfl⟩

/-- Witness for `delete_classification` at concrete inputs: 204-with-empty-body
deletes report `true`; a 405 agreement delete reports `false`. -/
theorem delete_classification_witness :
    delete_asset_result (sendRequest (fun _ => none) (.resp 204 "")) = true ∧
    delete_ca_result (sendRequest (fun _ => none) (.resp 405 "x")) = false :=
  ⟨((delete_classification (fun _ => none)).1 (.resp 204 "")).1.mpr (Or.inl rfl),
   ((delete_classification (fun _ => none)).2.1 405 "x" (by omega)).2.2⟩

/-- The contract definitions of the snapshot that target asset `aid`. -/
def targetingDefs (defs : List CDEntry) (aid : Json) : List CDEntry :=
  defs.filter (fun e => Json.beq e.assetsSelectorTarget aid)

/-- The contract agreements of the snapshot that reference asset `aid`. -/
def referencingCAs (cas : List CAEntry) (aid : Json) : List CAEntry :=
  cas.filter (fun e => Json.beq e.assetId aid)

lemma deleteDefsLoop_spec (delCd : Json → Bool) (aid : Json) :
    ∀ defs : List CDEntry,
      (deleteDefsLoop delCd aid defs).2.2 =
        (targetingDefs defs aid).map (fun e => DelCall.cd e.id) ∧
      (deleteDefsLoop delCd aid defs).1 + (deleteDefsLoop delCd aid defs).2.1 =
        (targetingDefs defs aid).length
  | [] => ⟨rfl, rfl⟩
  | e :: rest => by
    obtain ⟨ih1, ih2⟩ := deleteDefsLoop_spec delCd aid rest
    rcases hX : deleteDefsLoop delCd aid rest with ⟨d, f, tr⟩
    rw [hX] at ih1 ih2
    simp only [targetingDefs] at ih1 ih2 ⊢
    by_cases hb : Json.beq e.assetsSelectorTarget aid = true
    · by_cases hd : delCd e.id = true <;>
        · constructor <;>
            simp [deleteDefsLoop, hb, hd, hX, ih1]
          omega
    · constructor <;> simp [deleteDefsLoop, hb, hX, ih1, ih2]

lemma deleteCAsLoop_spec (delCa : Json → Bool) (aid : Json) :
    ∀ cas : List CAEntry,
      (deleteCAsLoop delCa aid cas).2.2 =
        (referencingCAs cas aid).map (fun e => DelCall.ca e.id) ∧
      (deleteCAsLoop delCa aid cas).1 + (deleteCAsLoop delCa aid cas).2.1 =
        (referencingCAs cas aid).length
  | [] => ⟨rfl, rfl⟩
  | e :: rest => by
    obtain ⟨ih1, ih2⟩ := deleteCAsLoop_spec delCa aid rest
    rcases hX : deleteCAsLoop delCa aid rest with ⟨d, f, tr⟩
    rw [hX] at ih1 ih2
    simp only [referencingCAs] at ih1 ih2 ⊢
    by_cases hb : Json.beq e.assetId aid = true
    · by_cases hd : delCa e.id = true <;>
        · constructor <;>
            simp [deleteCAsLoop, hb, hd, hX, ih1]
          omega
    · constructor <;> simp [deleteCAsLoop, hb, hX, ih1, ih2]

lemma processAsset_spec (delCd delCa delA : Json → Bool) (defs : List CDEntry)
    (cas : List CAEntry) (aid : Json) :
    (processAsset delCd delCa delA defs cas aid).1 =
      (targetingDefs defs aid).map (fun e => DelCall.cd e.id) ++
      (referencingCAs cas aid).map (fun e => DelCall.ca e.id) ++
      [DelCall.asset aid] ∧
    (processAsset delCd delCa delA defs cas aid).2.deleted_assets +
      (processAsset delCd delCa delA defs cas aid).2.failed_assets = 1 ∧
    (processAsset delCd delCa delA defs cas aid).2.deleted_cds +
      (processAsset delCd delCa delA defs cas aid).2.failed_cds =
      (targetingDefs defs aid).length ∧
    (processAsset delCd delCa delA defs cas aid).2.deleted_cas +
      (processAsset delCd delCa delA defs cas aid).2.failed_cas =
      (referencingCAs cas aid).length := by
  obtain ⟨hd1, hd2⟩ := deleteDefsLoop_spec delCd aid defs
  obtain ⟨hc1, hc2⟩ := deleteCAsLoop_spec delCa aid cas
  rcases hX : deleteDefsLoop delCd aid defs with ⟨d1, f1, tr1⟩
  rcases hY : deleteCAsLoop delCa aid cas with ⟨d2, f2, tr2⟩
  rw [hX] at hd1 hd2
  rw [hY] at hc1 hc2
  by_cases ha : delA aid = true <;>
    simp_all [processAsset]

/-- C1: the cascade orchestrator, for every selected asset in order, first
calls delete on every contract definition of the snapshot whose extracted
target equals the asset's id, then on every contract agreement of the snapshot
whose extracted `assetId` equals the asset's id, then on the asset itself —
and the resulting call sequence does not depend on the delete outcomes
(`delCd`, `delCa`, `delA` do not occur on the right-hand side), so dependent
failures never prevent the asset-delete attempt and the cascade always
continues to the next selected asset. -/
theorem cascade_call_order (delCd delCa delA : Json → Bool) (defs : List CDEntry)
    (cas : List CAEntry) (selected : List AssetD) :
    (runCascade delCd delCa delA defs cas selected).1 =
      selected.flatMap (fun a =>
        (targetingDefs defs a.id).map (fun e => DelCall.cd e.id) ++
        (referencingCAs cas a.id).map (fun e => DelCall.ca e.id) ++
        [DelCall.asset a.id]) := by
  induction selected with
  | nil => rfl
  | cons a rest ih =>
    have hp := (processAsset_spec delCd delCa delA defs cas a.id).1
    rcases hX : processAsset delCd delCa delA defs cas a.id with ⟨tr, c⟩
    rcases hY : runCascade delCd delCa delA defs cas rest with ⟨tr2, c2⟩
    rw [hX] at hp
    rw [hY] at ih
    simp at hp ih
    simp only [runCascade, hX, hY]
    simp [hp, ih, List.append_assoc]

/-- C10: after the cascade, deleted plus failed assets equals the number of
selected assets, and the deleted-plus-failed counters of each dependent
category equal the total number of snapshot entries matching a selected
asset's id, counted once per selected asset they match. -/
theorem cascade_counter_invariant (delCd delCa delA : Json → Bool)
    (defs : List CDEntry) (cas : List CAEntry) (selected : List AssetD) :
    (runCascade delCd delCa delA defs cas selected).2.deleted_assets +
      (runCascade delCd delCa delA defs cas selected).2.failed_assets =
      selected.length ∧
    (runCascade delCd delCa delA defs cas selected).2.deleted_cds +
      (runCascade delCd delCa delA defs cas selected).2.failed_cds =
      (selected.map (fun a => (targetingDefs defs a.id).length)).sum ∧
    (runCascade delCd delCa delA defs cas selected).2.deleted_cas +
      (runCascade delCd delCa delA defs cas selected).2.failed_cas =
      (selected.map (fun a => (referencingCAs cas a.id).length)).sum := by
  induction selected with
  | nil => exact ⟨rfl, rfl, rfl⟩
  | cons a rest ih =>
    obtain ⟨hp1, hp2, hp3, hp4⟩ := processAsset_spec delCd delCa delA defs cas a.id
    rcases hX : processAsset delCd delCa delA defs cas a.id with ⟨tr, c⟩
    rcases hY : runCascade delCd delCa delA defs cas rest with ⟨tr2, c2⟩
    rw [hX] at hp2 hp3 hp4
    rw [hY] at ih
    simp only [runCascade, hX, hY]
    simp only [Counters.add, List.length_cons, List.map_cons, List.sum_cons] at *
    refine ⟨by omega, by omega, by omega⟩

/-- C3: `list_assets` tries the four strategies in the fixed order
`GET /v3/assets`, `POST /v3/assets/request`, `POST /v2/assets/request`,
`GET /v2/assets`; strategy k+1 is invoked exactly when strategies 1..k
yielded no usable list; `failed` and `exception` outcomes are never usable
(so they fall through); and when all four are exhausted without a usable
list the function returns the empty list rather than an error. -/
theorem list_assets_strategy_chain (ns : String) (parse parseLoads : String → Option Json)
    (transport : Strategy → HttpResult) :
    ((list_assets ns parse parseLoads transport).1 =
      if (usableList1 parseLoads (sendRequest parse (transport .v3get))).isSome
      then [.v3get]
      else if (usableList234 (sendRequest parse (transport .v3post))).isSome
      then [.v3get, .v3post]
      else if (usableList234 (sendRequest parse (transport .v2post))).isSome
      then [.v3get, .v3post, .v2post]
      else [.v3get, .v3post, .v2post, .v2get])
  ∧ (usableList1 parseLoads (sendRequest parse (transport .v3get)) = none →
     usableList234 (sendRequest parse (transport .v3post)) = none →
     usableList234 (sendRequest parse (transport .v2post)) = none →
     usableList234 (sendRequest parse (transport .v2get)) = none →
     list_assets ns parse parseLoads transport =
       ([.v3get, .v3post, .v2post, .v2get], .ok []))
  ∧ (∀ code text, ¬(200 ≤ code ∧ code < 300) →
      usableList1 parseLoads (sendRequest parse (.resp code text)) = none ∧
      usableList234 (sendRequest parse (.resp code text)) = none)
  ∧ (∀ msg,
      usableList1 parseLoads (sendRequest parse (.exn msg)) = none ∧
      usableList234 (sendRequest parse (.exn msg)) = none) := by
  refine ⟨?_, ?_, ?_, ?_⟩
  · rcases h1 : usableList1 parseLoads (sendRequest parse (transport .v3get)) with _ | l1
    · rcases h2 : usableList234 (sendRequest parse (transport .v3post)) with _ | l2
      · rcases h3 : usableList234 (sendRequest parse (transport .v2post)) with _ | l3
        · rcases h4 : usableList234 (sendRequest parse (transport .v2get)) with _ | l4 <;>
            simp [list_assets, h1, h2, h3, h4]
        · simp [list_assets, h1, h2, h3]
      · simp [list_assets, h1, h2]
    · simp [list_assets, h1]
  · intro h1 h2 h3 h4
    simp [list_assets, h1, h2, h3, h4]
  · intro code text h
    have hc : code ≠ 200 := by omega
    constructor <;>
      simp [sendRequest, if_neg h, usableList1, usableList234, dataList,
        ResponseDict.dataGet, hc]
  · intro msg
    exact ⟨rfl, rfl⟩

/-- Witness for `list_assets_strategy_chain`: a transport on which every
strategy fails with a 503 makes `list_assets` return the empty list after
invoking all four strategies in order. -/
theorem list_assets_strategy_chain_witness :
    list_assets "ns/" (fun _ => none) (fun _ => none) (fun _ => .resp 503 "err") =
      ([.v3get, .v3post, .v2post, .v2get], .ok []) := by
  have h := list_assets_strategy_chain "ns/" (fun _ => none) (fun _ => none)
    (fun _ => .resp 503 "err")
  have hf := h.2.2.1 503 "err" (by omega)
  exact h.2.1 hf.1 hf.2 hf.2 hf.2

/-- Transport for the C4 counterexample: strategy 1 fails with a 500,
strategy 2 answers 200 with a body the transport-level parser cannot parse
(but which `json.loads` would parse as a JSON array), strategies 3–4 fail. -/
def transportC4 : Strategy → HttpResult
  | .v3get => .resp 500 "boom"
  | .v3post => .resp 200 "ids"
  | .v2post => .resp 404 "nope"
  | .v2get => .resp 404 "nope"

/-- The `json.loads` oracle for the C4 counterexample: the body `"ids"`
parses as a one-element JSON array. -/
def parseLoadsC4 : String → Option Json :=
  fun s => if s = "ids" then some (.arr [.obj [("@id", .str "a1")]]) else none

/-- C4 counterexample: on this transport, strategy 2's outcome is
`success_non_json` and its raw text does reparse (via `json.loads`) to a JSON
array, yet `list_assets` does not accept it — it falls through to strategies
3 and 4 and ends with the empty list.  The claimed secondary-parse rescue
exists only in strategy 1. -/
theorem secondary_parse_counterexample :
    (sendRequest (fun _ => none) (transportC4 .v3post)).status = "success_non_json"
  ∧ parseLoadsC4 (sendRequest (fun _ => none) (transportC4 .v3post)).content =
      some (.arr [.obj [("@id", .str "a1")]])
  ∧ list_assets "ns/" (fun _ => none) parseLoadsC4 transportC4 =
      ([.v3get, .v3post, .v2post, .v2get], .ok []) :=
  ⟨rfl, rfl, rfl⟩

lemma sendRequest_non_json_data (parse : String → Option Json) (r : HttpResult)
    (h : (sendRequest parse r).status = "success_non_json") :
    (sendRequest parse r).data = none := by
  match r with
  | .exn msg => simp [sendRequest] at h
  | .resp code text =>
    by_cases hc : 200 ≤ code ∧ code < 300
    · by_cases ht : text = ""
      · simp [sendRequest, hc, ht] at h
      · cases hp : parse text
        · simp [sendRequest, hc, ht, hp]
        · simp [sendRequest, hc, ht, hp] at h
    · simp [sendRequest, hc] at h

/-- C4 amended: only the first strategy (`GET /v3/assets`) attempts a
secondary `json.loads` parse of the raw text, and only when the status code is
exactly 200: under those conditions a reparsed JSON array is accepted as the
usable list and no further strategy is invoked.  Strategies 2–4 accept only a
`success_json` outcome: a `success_non_json` outcome is never usable there. -/
theorem secondary_parse_only_first_strategy (ns : String)
    (parse parseLoads : String → Option Json) (transport : Strategy → HttpResult)
    (l : List Json)
    (h1 : (sendRequest parse (transport .v3get)).status = "success_non_json")
    (h2 : (sendRequest parse (transport .v3get)).status_code = some 200)
    (h3 : parseLoads (sendRequest parse (transport .v3get)).content = some (.arr l)) :
    usableList1 parseLoads (sendRequest parse (transport .v3get)) = some l ∧
    (list_assets ns parse parseLoads transport).1 = [.v3get] ∧
    ∀ rd : ResponseDict, rd.status = "success_non_json" → usableList234 rd = none := by
  have hdata := sendRequest_non_json_data parse (transport .v3get) h1
  have hu : usableList1 parseLoads (sendRequest parse (transport .v3get)) = some l := by
    simp [usableList1, h1, h2, h3, dataList, ResponseDict.dataGet, hdata, Json.asArr?]
  refine ⟨hu, by simp [list_assets, hu], ?_⟩
  intro rd hrd
  simp [usableList234, hrd]

/-- Witness for `secondary_parse_only_first_strategy` at a concrete transport
whose first strategy answers 200 with an unparseable-by-transport body. -/
theorem secondary_parse_only_first_strategy_witness :
    usableList1 (fun _ => some (.arr []))
      (sendRequest (fun _ => none) ((fun _ => .resp 200 "x") Strategy.v3get)) = some [] ∧
    (list_assets "ns/" (fun _ => none) (fun _ => some (.arr []))
      (fun _ => .resp 200 "x")).1 = [.v3get] :=
  ⟨(secondary_parse_only_first_strategy "ns/" (fun _ => none) (fun _ => some (.arr []))
      (fun _ => .resp 200 "x") [] rfl rfl rfl).1,
   (secondary_parse_only_first_strategy "ns/" (fun _ => none) (fun _ => some (.arr []))
      (fun _ => .resp 200 "x") [] rfl rfl rfl).2.1⟩

/-- C5 counterexample: a non-object item in an asset listing is not skipped —
the per-item asset extraction calls `.get` on it and raises
(`AttributeError`), so extraction of the whole list errors instead of
producing the remaining entities. -/
theorem extractor_non_object_counterexample :
    extractAll (extractAsset1 "https://w3id.org/edc/v0.0.1/ns/") [.num 5] =
      .error "AttributeError" :=
  rfl

/-- C5 amended: the contract-definition and contract-agreement extractors skip
(without error) items that are not objects or lack a truthy `@id`, leaving the
remaining items unaffected; the asset extractors skip items whose `@id` is
missing or falsy, but raise an `AttributeError` on non-object items instead of
skipping them. -/
theorem extractor_skip_behavior (ns : String) (j : Json) (rest : List Json) :
    (j.isObj = false →
      extractCDItem ns j = none ∧ extractCAItem j = none ∧
      extractAsset1 ns j = .error "AttributeError" ∧
      extractAsset2 ns j = .error "AttributeError" ∧
      extractAsset34 j = .error "AttributeError")
  ∧ (j.isObj = true → (j.getD "@id").truthy = false →
      extractCDItem ns j = none ∧ extractCAItem j = none ∧
      extractAsset1 ns j = .ok none ∧ extractAsset2 ns j = .ok none ∧
      extractAsset34 j = .ok none)
  ∧ (extractCDItem ns j = none → extractCDs ns (j :: rest) = extractCDs ns rest)
  ∧ (extractCAItem j = none → extractCAs (j :: rest) = extractCAs rest)
  ∧ (extractAsset1 ns j = .ok none →
      extractAll (extractAsset1 ns) (j :: rest) = extractAll (extractAsset1 ns) rest) := by
  refine ⟨?_, ?_, ?_, ?_, ?_⟩
  · intro h
    refine ⟨?_, ?_, ?_, ?_, ?_⟩ <;>
      simp [extractCDItem, extractCAItem, extractAsset1, extractAsset2,
        extractAsset34, h]
  · intro h1 h2
    refine ⟨?_, ?_, ?_, ?_, ?_⟩ <;>
      simp [extractCDItem, extractCAItem, extractAsset1, extractAsset2,
        extractAsset34, h1, h2]
  · intro h
    simp [extractCDs, h]
  · intro h
    simp [extractCAs, h]
  · intro h
    cases hrest : extractAll (extractAsset1 ns) rest <;>
      simp [extractAll, h, hrest, Bind.bind, Except.bind, Pure.pure, Except.pure]

/-- Witness for `extractor_skip_behavior`: an object item without `@id` is
skipped by every extractor and leaves the rest of the extraction unchanged. -/
theorem extractor_skip_behavior_witness :
    extractCDItem "ns/" (.obj [("x", .str "y")]) = none ∧
    extractAll (extractAsset1 "ns/") [.obj [("x", .str "y")]] =
      extractAll (extractAsset1 "ns/") [] := by
  have h := extractor_skip_behavior "ns/" (.obj [("x", .str "y")]) []
  have h2 := h.2.1 rfl rfl
  exact ⟨h2.1, h.2.2.2.2 h2.2.2.1⟩

/-- The criterion predicate used by the resolution loop, with the truthiness
of `operandRight` that governs the loop's `break`. -/
def critHit (ns : String) (c : Json) : Bool :=
  critMatches ns c && (c.getD "operandRight").truthy

lemma critLoop_characterization (ns : String) :
    ∀ (cs : List Json) (acc : Json),
      critLoop ns acc cs =
        match cs.find? (critHit ns) with
        | some c => c.getD "operandRight"
        | none =>
          match (cs.filter (critMatches ns)).getLast? with
          | some c => c.getD "operandRight"
          | none => acc
  | [], _ => rfl
  | c :: rest, acc => by
    by_cases hm : critMatches ns c = true
    · by_cases hv : (c.getD "operandRight").truthy = true
      · have hfind : (c :: rest).find? (critHit ns) = some c :=
          List.find?_cons_of_pos rest (by simp [critHit, hm, hv])
        simp [critLoop, hm, hv, hfind]
      · have ihv := critLoop_characterization ns rest (c.getD "operandRight")
        have hfind : (c :: rest).find? (critHit ns) = rest.find? (critHit ns) :=
          List.find?_cons_of_neg rest (by simp [critHit, hm, hv])
        have hfilter : (c :: rest).filter (critMatches ns) =
            c :: rest.filter (critMatches ns) := by simp [hm]
        have hl : critLoop ns acc (c :: rest) =
            critLoop ns (c.getD "operandRight") rest := by
          simp [critLoop, hm, hv]
        rw [hl, ihv, hfind, hfilter]
        cases hf : rest.find? (critHit ns)
        · cases hfil : rest.filter (critMatches ns) with
          | nil => simp [hfil]
          | cons x xs =>
            rw [List.getLast?_cons_cons]
            cases hlast : (x :: xs).getLast? with
            | none =>
              rw [List.getLast?_eq_none_iff] at hlast
              simp at hlast
            | some c2 => rfl
        · simp
    · have iha := critLoop_characterization ns rest acc
      have hfind : (c :: rest).find? (critHit ns) = rest.find? (critHit ns) :=
        List.find?_cons_of_neg rest (by simp [critHit, hm])
      have hfilter : (c :: rest).filter (critMatches ns) =
          rest.filter (critMatches ns) := by simp [hm]
      have hl : critLoop ns acc (c :: rest) = critLoop ns acc rest := by
        simp [critLoop, hm]
      rw [hl, iha, hfind, hfilter]

/-- The default EDC namespace (the script's fallback for `EDC_NAMESPACE`). -/
def defaultNs : String := "https://w3id.org/edc/v0.0.1/ns/"

/-- A matching criterion whose `operandRight` is the empty (falsy) string. -/
def critEmptyRight : Json :=
  .obj [("operandLeft", .str "https://w3id.org/edc/v0.0.1/ns/id"),
        ("operator", .str "="), ("operandRight", .str "")]

/-- A matching criterion whose `operandRight` is `"asset-42"`. -/
def critAsset42 : Json :=
  .obj [("operandLeft", .str "https://w3id.org/edc/v0.0.1/ns/id"),
        ("operator", .str "="), ("operandRight", .str "asset-42")]

/-- A raw contract definition whose ordered criteria list starts with a
matching criterion carrying a falsy `operandRight`. -/
def cdItemC6 : Json :=
  .obj [("@id", .str "cd1"), ("assetsSelector", .arr [critEmptyRight, critAsset42])]

/-- C6 counterexample: the first matching criterion of `cdItemC6` has
`operandRight = ""`, yet the resolved target is `"asset-42"` from the second
matching criterion — the loop only `break`s on a truthy `operandRight`, so
first-match-wins as claimed fails for falsy matches. -/
theorem selector_first_match_counterexample :
    critMatches defaultNs critEmptyRight = true
  ∧ critEmptyRight.getD "operandRight" = .str ""
  ∧ criteriaToCheck cdItemC6 = [critEmptyRight, critAsset42]
  ∧ resolveSelectorTarget defaultNs cdItemC6 = .str "asset-42" :=
  ⟨rfl, rfl, rfl, rfl⟩

/-- C6 amended: `targetAssetId` equals the `operandRight` of the first
criterion that matches the namespaced id key with operator `"="` AND has a
truthy `operandRight`; if no matching criterion has a truthy `operandRight`,
it equals the `operandRight` of the LAST matching criterion (possibly falsy),
and it is null when no criterion matches at all.  The resolved value is the
same whichever of the three raw shapes carried the criteria. -/
theorem selector_resolution (ns : String) (item : Json) :
    (∀ c, (criteriaToCheck item).find? (critHit ns) = some c →
      resolveSelectorTarget ns item = c.getD "operandRight")
  ∧ ((criteriaToCheck item).find? (critHit ns) = none →
      (∀ c, ((criteriaToCheck item).filter (critMatches ns)).getLast? = some c →
        resolveSelectorTarget ns item = c.getD "operandRight")
      ∧ ((criteriaToCheck item).filter (critMatches ns) = [] →
        resolveSelectorTarget ns item = .null))
  ∧ (∀ (fs : List (String × Json)) (x : Json),
      resolveSelectorTarget ns (.obj [("@id", x), ("assetsSelector", .obj fs)]) =
        resolveSelectorTarget ns (.obj [("@id", x), ("assetsSelector", .arr [.obj fs])])
      ∧ resolveSelectorTarget ns (.obj [("@id", x), ("assetsSelector", .obj fs)]) =
        resolveSelectorTarget ns (.obj [("@id", x), ("criterion", .obj fs)])) := by
  have hch := critLoop_characterization ns (criteriaToCheck item) .null
  refine ⟨?_, ?_, ?_⟩
  · intro c hc
    rw [resolveSelectorTarget, hch, hc]
  · intro hn
    constructor
    · intro c hc
      rw [resolveSelectorTarget, hch, hn, hc]
    · intro hfil
      rw [resolveSelectorTarget, hch, hn, hfil]
      rfl
  · intro fs x
    exact ⟨rfl, rfl⟩

/-- Witness for `selector_resolution` on `cdItemC6`: the first matching
criterion with a truthy `operandRight` is `critAsset42`, and the resolved
target is `"asset-42"`. -/
theorem selector_resolution_witness :
    resolveSelectorTarget defaultNs cdItemC6 = .str "asset-42" :=
  (selector_resolution defaultNs cdItemC6).1 critAsset42 rfl

/-- C7: an agreement's `targetAssetId` is resolved by ordered fallback — the
top-level `assetId` when truthy; else the `@id` of a nested `asset` object
when truthy; else the policy object's `target`, unwrapped to its `@id` when
the target is itself an object; and when none of the stages yields a truthy
value the result is falsy (no usable reference), with no possibility of an
exception (the resolver is a total function). -/
theorem agreement_asset_resolution (item : Json) :
    ((item.getD "assetId").truthy = true →
      resolveAgreementAsset item = item.getD "assetId")
  ∧ ((item.getD "assetId").truthy = false →
     (item.getD "asset").isObj = true →
     ((item.getD "asset").getD "@id").truthy = true →
      resolveAgreementAsset item = (item.getD "asset").getD "@id")
  ∧ ((item.getD "assetId").truthy = false →
     ((item.getD "asset").isObj = true →
       ((item.getD "asset").getD "@id").truthy = false) →
     (item.get2 "policy" (.obj [])).isObj = true →
      resolveAgreementAsset item =
        (if ((item.get2 "policy" (.obj [])).getD "target").isObj
         then ((item.get2 "policy" (.obj [])).getD "target").getD "@id"
         else (item.get2 "policy" (.obj [])).getD "target"))
  ∧ ((item.getD "assetId").truthy = false →
     ((item.getD "asset").isObj = true →
       ((item.getD "asset").getD "@id").truthy = false) →
     ((item.get2 "policy" (.obj [])).isObj = true →
       (if ((item.get2 "policy" (.obj [])).getD "target").isObj
        then ((item.get2 "policy" (.obj [])).getD "target").getD "@id"
        else (item.get2 "policy" (.obj [])).getD "target").truthy = false) →
      (resolveAgreementAsset item).truthy = false) := by
  have ht2 : (item.getD "assetId").truthy = false →
      ((item.getD "asset").isObj = true →
        ((item.getD "asset").getD "@id").truthy = false) →
      (if (item.getD "asset").isObj then (item.getD "asset").getD "@id"
       else item.getD "assetId").truthy = false := by
    intro h1 h2
    by_cases ha : (item.getD "asset").isObj = true
    · simp [ha, h2 ha]
    · simp [ha, h1]
  refine ⟨?_, ?_, ?_, ?_⟩
  · intro h1
    simp [resolveAgreementAsset, h1]
  · intro h1 h2 h3
    simp [resolveAgreementAsset, h1, h2, h3]
  · intro h1 h2 h3
    simp [resolveAgreementAsset, h1, ht2 h1 h2, h3]
  · intro h1 h2 h3
    by_cases hp : (item.get2 "policy" (.obj [])).isObj = true
    · have hun := h3 hp
      by_cases htg : ((item.get2 "policy" (.obj [])).getD "target").isObj = true
      · rw [if_pos htg] at hun
        simp [resolveAgreementAsset, h1, ht2 h1 h2, hp, htg, hun]
      · rw [if_neg htg] at hun
        simp [resolveAgreementAsset, h1, ht2 h1 h2, hp, htg, hun]
    · simp [resolveAgreementAsset, h1, ht2 h1 h2, hp]

/-- A raw contract agreement with no top-level asset reference but a nested
`asset` object carrying `@id = "asset-7"`. -/
def caItemC7 : Json :=
  .obj [("@id", .str "agr-1"), ("asset", .obj [("@id", .str "asset-7")])]

/-- Witness for `agreement_asset_resolution`: the nested `asset.@id` wins when
the top-level `assetId` is absent. -/
theorem agreement_asset_resolution_witness :
    resolveAgreementAsset caItemC7 = .str "asset-7" :=
  (agreement_asset_resolution caItemC7).2.1 rfl rfl rfl

/-- A complete configuration (env file present, both variables set). -/
def cfgOKc : Config := ⟨true, some "http://x", some "k"⟩

/-- A parser under which the asset listing is a JSON array containing the
bare number `5` (not an object). -/
def parseC9 : String → Option Json :=
  fun s => if s = "L" then some (.arr [.num 5]) else none

/-- A transport answering every listing strategy with 200 and body `"L"`. -/
def transportC9 : Strategy → HttpResult := fun _ => .resp 200 "L"

/-- C9 counterexample: with complete configuration (so the claim predicts exit
code zero), a usable asset listing containing a non-object item makes `main`
raise an uncaught `AttributeError` — the process exits non-zero after one
network call, refuting "non-zero exit only for missing configuration". -/
theorem exit_code_counterexample :
    cfgOKc.envFileExists = true ∧ cfgOKc.base_url = some "http://x" ∧
    cfgOKc.api_key = some "k" ∧
    mainRun cfgOKc "ns/" parseC9 (fun _ => none) transportC9 (fun as => as) true
      (.resp 204 "") (.resp 204 "") (fun _ => .resp 204 "") =
      (.crashed "AttributeError", 1) :=
  ⟨rfl, rfl, rfl, rfl⟩

/-- C9 amended: the process exits with code 1, before any network activity,
exactly when the environment file is missing or `BASE_URL`/`API_KEY` is unset
or empty; with complete configuration every run in which asset-listing
extraction does not raise ends with exit code zero, regardless of how many
deletions fail — but a run whose listing extraction raises (see
`exit_code_counterexample`) ends non-zero. -/
theorem mainRun_exit_codes (cfg : Config) (ns : String)
    (parse parseLoads : String → Option Json) (transport : Strategy → HttpResult)
    (select : List AssetD → List AssetD) (confirmOk : Bool)
    (cdR caR : HttpResult) (delResp : DelCall → HttpResult) :
    ((cfg.envFileExists = false ∨ cfg.base_url.getD "" = "" ∨ cfg.api_key.getD "" = "") →
      mainRun cfg ns parse parseLoads transport select confirmOk cdR caR delResp =
        (.exitCode 1, 0))
  ∧ (cfg.envFileExists = true → cfg.base_url.getD "" ≠ "" → cfg.api_key.getD "" ≠ "" →
     ∀ assets, (list_assets ns parse parseLoads transport).2 = .ok assets →
      (mainRun cfg ns parse parseLoads transport select confirmOk cdR caR delResp).1 =
        .exitCode 0) := by
  constructor
  · intro h
    by_cases he : cfg.envFileExists = true
    · by_cases hb : cfg.base_url.getD "" = ""
      · simp [mainRun, he, hb]
      · have hk : cfg.api_key.getD "" = "" := by
          rcases h with h | h | h
          · rw [h] at he; cases he
          · exact absurd h hb
          · exact h
        simp [mainRun, he, hb, hk]
    · have he2 : cfg.envFileExists = false := by
        cases hx : cfg.envFileExists
        · rfl
        · exact absurd hx he
      simp [mainRun, he2]
  · intro he hb hk assets hok
    rcases hls : list_assets ns parse parseLoads transport with ⟨tr, res⟩
    rw [hls] at hok
    simp only [] at hok
    rcases hrc : runCascade
        (fun cid => delete_cd_result (sendRequest parse (delResp (.cd cid))))
        (fun cid => delete_ca_result (sendRequest parse (delResp (.ca cid))))
        (fun aid => delete_asset_result (sendRequest parse (delResp (.asset aid))))
        (list_contract_definitions ns parse cdR) (list_contract_agreements parse caR)
        (select assets) with ⟨ct, cc⟩
    simp only [mainRun, he, hb, hk, hls, hok, hrc]
    split_ifs <;> simp_all

/-- Witness for `mainRun_exit_codes`: a missing env file exits 1 with no
network calls; a complete configuration whose listing fails everywhere exits 0. -/
theorem mainRun_exit_codes_witness :
    mainRun ⟨false, some "u", some "k"⟩ "ns/" (fun _ => none) (fun _ => none)
      (fun _ => .resp 503 "e") (fun as => as) true (.resp 204 "") (.resp 204 "")
      (fun _ => .resp 204 "") = (.exitCode 1, 0) ∧
    (mainRun ⟨true, some "u", some "k"⟩ "ns/" (fun _ => none) (fun _ => none)
      (fun _ => .resp 503 "e") (fun as => as) true (.resp 204 "") (.resp 204 "")
      (fun _ => .resp 204 "")).1 = .exitCode 0 :=
  ⟨(mainRun_exit_codes ⟨false, some "u", some "k"⟩ "ns/" (fun _ => none) (fun _ => none)
      (fun _ => .resp 503 "e") (fun as => as) true (.resp 204 "") (.resp 204 "")
      (fun _ => .resp 204 "")).1 (Or.inl rfl),
   (mainRun_exit_codes ⟨true, some "u", some "k"⟩ "ns/" (fun _ => none) (fun _ => none)
      (fun _ => .resp 503 "e") (fun as => as) true (.resp 204 "") (.resp 204 "")
      (fun _ => .resp 204 "")).2 rfl (by decide) (by decide) [] rfl⟩
